import Mathlib

/-!
Shallow embedding of the Spiralis galaxy renderer (src/main.cpp).

Real-valued floating-point arithmetic on `double` is modelled exactly:
purely arithmetic code (angle updates, intensity accumulation, glyph
quantisation, grid indexing) is embedded over `ℚ`, and code that calls
transcendental functions (`sqrt`, `cos`, `sin`) is embedded over `ℝ`
using `Real.sqrt`, `Real.cos`, `Real.sin`.  `static_cast<int>` on a
`double` truncates toward zero and is embedded as `cppTrunc`.
-/

/-- C++ `static_cast<int>` applied to a real value: truncation toward zero
(`⌊q⌋` for nonnegative `q`, `⌈q⌉` for negative `q`). -/
def cppTrunc (q : ℚ) : ℤ :=
  if 0 ≤ q then ⌊q⌋ else ⌈q⌉

/-- C++ `std::clamp(v, lo, hi)` for `lo ≤ hi`. -/
def cppClamp (v lo hi : ℤ) : ℤ :=
  max lo (min v hi)

/-- `constexpr double PI = 3.14159265358979323846` (main.cpp:52), kept as the
exact rational value of the decimal literal. -/
def cppPI : ℚ := 3.14159265358979323846

/-- `constexpr double TWO_PI = 2.0 * PI` (main.cpp:53). -/
def TWO_PI : ℚ := 2 * cppPI

/-- `const string GRADIENT = " .:-=+*#%@"` (main.cpp:55). -/
def GRADIENT : String := " .:-=+*#%@"

/-! ## Frame grids

The C++ frame buffers are `vector<string> screen(height, string(width, ' '))`
and `vector<vector<double>> intensity(height, vector<double>(width, 0))`
(main.cpp:153-154).  Both are embedded as total functions from (row, column)
indices; all reads and writes the program performs are bounds-checked, so the
function view agrees with the vectors on every index the program touches. -/

/-- The character grid, indexed `screen y x` (row `y`, column `x`). -/
abbrev Screen := ℕ → ℕ → Char

/-- The accumulated-intensity grid, indexed `g y x`. -/
abbrev Intensity := ℕ → ℕ → ℚ

/-- Write character `c` at cell `(y, x)` of a screen (`screen[y][x] = c`). -/
def setCellC (s : Screen) (y x : ℕ) (c : Char) : Screen :=
  fun y' x' => if y' = y ∧ x' = x then c else s y' x'

/-- Add `b` to cell `(y, x)` of an intensity grid (`intensity[y][x] += b`). -/
def addCellQ (g : Intensity) (y x : ℕ) (b : ℚ) : Intensity :=
  fun y' x' => if y' = y ∧ x' = x then g y' x' + b else g y' x'

/-- The fresh screen: `string(width, ' ')` rows, every cell a space. -/
def blankScreen : Screen := fun _ _ => ' '

/-- The fresh intensity grid: every cell `0`. -/
def zeroIntensity : Intensity := fun _ _ => 0

/-! ## Intensity-to-glyph pass (`Galaxy::apply_intensity`, main.cpp:243-253)

```
for (int y = 0; y < height_; ++y)
  for (int x = 0; x < width_; ++x)
    if (intensity[y][x] > 0.1) {
      int idx = static_cast<int>(intensity[y][x] * 3.0);
      idx = clamp(idx, 0, static_cast<int>(GRADIENT.length()) - 1);
      screen[y][x] = GRADIENT[idx];
    }
```
The loop body at cell `(y, x)` reads only `intensity[y][x]` and writes only
`screen[y][x]`, so the iterations are independent; the loops are embedded as
structural recursion over the row and column counters. -/

/-- The ramp index the loop body computes for intensity `i`:
`clamp(static_cast<int>(i * 3.0), 0, GRADIENT.length() - 1)`. -/
def rampIndex (i : ℚ) : ℤ :=
  cppClamp (cppTrunc (i * 3)) 0 ((GRADIENT.length : ℤ) - 1)

/-- The glyph the loop body writes for intensity `i`: `GRADIENT[rampIndex i]`. -/
def glyphFor (i : ℚ) : Char :=
  GRADIENT.toList.getD (rampIndex i).toNat ' '

/-- Inner loop of `apply_intensity`: columns `x = 0, …, n-1` of row `y`. -/
def applyRow (g : Intensity) (y : ℕ) : ℕ → Screen → Screen
  | 0, scr => scr
  | n + 1, scr =>
      let scr2 := applyRow g y n scr
      if g y n > 0.1 then setCellC scr2 y n (glyphFor (g y n)) else scr2

/-- Outer loop of `apply_intensity`: rows `y = 0, …, m-1`, each over `width`
columns. -/
def applyRows (width : ℕ) (g : Intensity) : ℕ → Screen → Screen
  | 0, scr => scr
  | m + 1, scr => applyRow g m width (applyRows width g m scr)

/-- `Galaxy::apply_intensity` (main.cpp:243-253). -/
def apply_intensity (width height : ℕ) (screen : Screen) (g : Intensity) : Screen :=
  applyRows width g height screen

/-- Characterisation of the inner loop: it rewrites exactly the cells
`(y, x)` with `x < n` whose intensity exceeds `0.1`. -/
theorem applyRow_apply (g : Intensity) (y n : ℕ) (scr : Screen) (y' x' : ℕ) :
    applyRow g y n scr y' x' =
      if y' = y ∧ x' < n ∧ g y x' > 0.1 then glyphFor (g y x') else scr y' x' := by
  induction n with
  | zero => simp [applyRow]
  | succ n ih =>
    by_cases hc : g y n > 0.1
    · by_cases hy : y' = y
      · subst hy
        by_cases hx : x' = n
        · subst hx
          simp [applyRow, hc, setCellC, ih]
        · have hsp : applyRow g y' (n + 1) scr y' x' = applyRow g y' n scr y' x' := by
            simp [applyRow, hc, setCellC, hx]
          rw [hsp, ih]
          by_cases hlt : x' < n
          · simp [hlt, Nat.lt_succ_of_lt hlt]
          · have : ¬ x' < n + 1 := by omega
            simp [hlt, this]
      · have hsp : applyRow g y (n + 1) scr y' x' = applyRow g y n scr y' x' := by
          simp [applyRow, hc, setCellC, hy]
        rw [hsp, ih]
        simp [hy]
    · have hsp : applyRow g y (n + 1) scr y' x' = applyRow g y n scr y' x' := by
        simp [applyRow, hc]
      rw [hsp, ih]
      by_cases hy : y' = y
      · subst hy
        by_cases hx : x' = n
        · subst hx
          simp [hc, Nat.lt_irrefl]
        · by_cases hlt : x' < n
          · simp [hlt, Nat.lt_succ_of_lt hlt]
          · have : ¬ x' < n + 1 := by omega
            simp [hlt, this]
      · simp [hy]

/-- Characterisation of `apply_intensity`: every in-range cell whose
accumulated intensity exceeds `0.1` is overwritten with its glyph; every
other cell keeps its previous character. -/
theorem apply_intensity_apply (width height : ℕ) (screen : Screen) (g : Intensity)
    (y' x' : ℕ) :
    apply_intensity width height screen g y' x' =
      if y' < height ∧ x' < width ∧ g y' x' > 0.1 then glyphFor (g y' x')
      else screen y' x' := by
  show applyRows width g height screen y' x' = _
  induction height with
  | zero => simp [applyRows]
  | succ m ih =>
    show applyRow g m width (applyRows width g m screen) y' x' = _
    rw [applyRow_apply, ih]
    by_cases hy : y' = m
    · subst hy
      by_cases hx : x' < width
      · by_cases hc : g y' x' > 0.1
        · simp [hx, hc, Nat.lt_succ_self, Nat.lt_irrefl]
        · simp [hx, hc, Nat.lt_irrefl]
      · simp [hx, Nat.lt_irrefl]
    · by_cases hlt : y' < m
      · simp [hy, hlt, Nat.lt_succ_of_lt hlt]
      · have : ¬ y' < m + 1 := by omega
        simp [hy, hlt, this]

/-! ## Vec2 (main.cpp:64-79)

2D vector of `double`s.  `length` and `normalized` call `sqrt`, embedded with
`Real.sqrt`. -/

/-- `struct Vec2 { double x, y; }` (main.cpp:64-67). -/
structure Vec2 where
  x : ℝ
  y : ℝ

/-- `Vec2 operator+(const Vec2&)` (main.cpp:69). -/
def Vec2.add (a b : Vec2) : Vec2 := ⟨a.x + b.x, a.y + b.y⟩

/-- `Vec2 operator-(const Vec2&)` (main.cpp:70). -/
def Vec2.sub (a b : Vec2) : Vec2 := ⟨a.x - b.x, a.y - b.y⟩

/-- `Vec2 operator*(double)` (main.cpp:71). -/
def Vec2.smul (a : Vec2) (s : ℝ) : Vec2 := ⟨a.x * s, a.y * s⟩

/-- `double length() const { return sqrt(x * x + y * y); }` (main.cpp:73). -/
noncomputable def Vec2.length (v : Vec2) : ℝ := Real.sqrt (v.x * v.x + v.y * v.y)

/-- `Vec2 normalized() const` (main.cpp:74-77): divide by the length when it
is strictly positive, otherwise return the zero vector. -/
noncomputable def Vec2.normalized (v : Vec2) : Vec2 :=
  if v.length > 0 then ⟨v.x / v.length, v.y / v.length⟩ else ⟨0, 0⟩

/-- `Vec2 perpendicular() const { return {-y, x}; }` (main.cpp:78). -/
def Vec2.perpendicular (v : Vec2) : Vec2 := ⟨-v.y, v.x⟩

/-! ## Particle (main.cpp:81-103)

The `Vec2 pos` member of the C++ struct is declared but never read or
written anywhere in the program, so it is omitted here. -/

/-- `struct Particle` (main.cpp:81-89): orbital state of one galaxy
particle. -/
structure Particle where
  angle : ℝ
  radius : ℝ
  angular_velocity : ℝ
  brightness : ℝ

/-- `Particle::update(double dt)` (main.cpp:91-95):
`angle += angular_velocity * dt`, then subtract one turn if `angle > TWO_PI`,
then add one turn if `angle < 0`. -/
noncomputable def Particle.update (p : Particle) (dt : ℝ) : Particle :=
  let angle1 := p.angle + p.angular_velocity * dt
  let angle2 := if angle1 > (TWO_PI : ℝ) then angle1 - (TWO_PI : ℝ) else angle1
  let angle3 := if angle2 < 0 then angle2 + (TWO_PI : ℝ) else angle2
  { p with angle := angle3 }

/-- `Particle::get_position(const Vec2& center, double aspect)`
(main.cpp:97-102). -/
noncomputable def Particle.get_position (p : Particle) (center : Vec2) (aspect : ℝ) : Vec2 :=
  ⟨center.x + p.radius * Real.cos p.angle * aspect,
   center.y + p.radius * Real.sin p.angle⟩

/-! ## Star (main.cpp:105-119) -/

/-- `struct Star` (main.cpp:105-110); named `TwinklingStar` (the spec's name
for it) because `Star` is taken by Mathlib. -/
structure TwinklingStar where
  pos : Vec2
  phase : ℝ
  speed : ℝ
  base_brightness : ℝ

/-- `Star::update(double dt)` (main.cpp:111-114): `phase += speed * dt`, then
subtract one turn if `phase > TWO_PI` (there is no negative-phase branch). -/
noncomputable def TwinklingStar.update (s : TwinklingStar) (dt : ℝ) : TwinklingStar :=
  let phase1 := s.phase + s.speed * dt
  { s with phase := if phase1 > (TWO_PI : ℝ) then phase1 - (TWO_PI : ℝ) else phase1 }

/-- `Star::get_brightness()` (main.cpp:116-118). -/
noncomputable def TwinklingStar.get_brightness (s : TwinklingStar) : ℝ :=
  s.base_brightness * (0.3 + 0.7 * (0.5 + 0.5 * Real.sin s.phase))

/-! ## Initial layout (main.cpp:165-215)

The pseudo-random draws (`random_double(a, b)`, a `uniform_real_distribution`
over `[a, b)` driven by `mt19937 rng(42)`) are taken as parameters ranging
over the sampled intervals; everything computed from them follows the code
exactly. -/

/-- One spiral-arm particle from `Galaxy::init_spiral_arms` (main.cpp:165-189):
arm index `arm` (0 or 1), particle index `i` (0 … 149), with `rv` the draw of
`random_double(-1.0, 1.0)` and `av` the draw of `random_double(-0.2, 0.2)`. -/
noncomputable def spiralParticle (arm i : ℕ) (rv av : ℝ) : Particle :=
  let t : ℝ := (i : ℝ) / 150
  let arm_offset : ℝ := (arm : ℝ) * (cppPI : ℝ)
  let base_radius := 2 + t * 14
  let spiral_angle := arm_offset + t * 2.5 * (cppPI : ℝ)
  let radius_variation := rv * (0.5 + t * 1.5)
  let angle_variation := av
  let radius := base_radius + radius_variation
  let angle := spiral_angle + angle_variation
  { radius := radius
    angle := angle
    angular_velocity := 0.15 / Real.sqrt radius
    brightness := 0.3 + 0.7 * (1 - t * 0.6) }

/-- One core-cluster particle from `Galaxy::init_core` (main.cpp:191-202):
`rd` is the draw of `random_double(0.5, 3.0)`, `ad` of
`random_double(0, TWO_PI)`, `bd` of `random_double(0, 0.2)`. -/
noncomputable def coreParticle (rd ad bd : ℝ) : Particle :=
  { radius := rd
    angle := ad
    angular_velocity := 0.3 / Real.sqrt (rd + 0.5)
    brightness := 0.8 + bd }

/-! ## Star pass and particle accumulation (main.cpp:217-241)

`render_stars` and `accumulate_particles` read each star's floored screen
position / each particle's projected, floored screen position.  The projected
coordinates and the star's `get_brightness()` value involve `cos`/`sin`, so
the pipeline versions below take them as already-computed rational inputs
(`ScreenStar`, `ScreenParticle`); the bounds checks, thresholds and grid
writes follow the code exactly. -/

/-- A background star as seen by `Galaxy::render_stars`: its screen position
`(posx, posy)` and the value `bright` of `s.get_brightness()`. -/
structure ScreenStar where
  posx : ℚ
  posy : ℚ
  bright : ℚ
deriving DecidableEq

/-- Loop body of `Galaxy::render_stars` (main.cpp:218-227): floor the
position, bounds-check, then pick `'*'` / `'+'` / `'.'` by brightness
thresholds `0.7` / `0.4` / `0.2`, or leave the cell alone. -/
def starGlyphStep (width height : ℕ) (scr : Screen) (s : ScreenStar) : Screen :=
  let sx := cppTrunc s.posx
  let sy := cppTrunc s.posy
  if 0 ≤ sx ∧ sx < (width : ℤ) ∧ 0 ≤ sy ∧ sy < (height : ℤ) then
    if s.bright > 0.7 then setCellC scr sy.toNat sx.toNat '*'
    else if s.bright > 0.4 then setCellC scr sy.toNat sx.toNat '+'
    else if s.bright > 0.2 then setCellC scr sy.toNat sx.toNat '.'
    else scr
  else scr

/-- `Galaxy::render_stars` (main.cpp:217-229). -/
def render_stars (width height : ℕ) (stars : List ScreenStar) (scr : Screen) : Screen :=
  stars.foldl (starGlyphStep width height) scr

/-- A particle as seen by `Galaxy::accumulate_particles`: its projected
screen position `(posx, posy)` (the value of
`get_position(center_, aspect_ratio_)`) and its brightness. -/
structure ScreenParticle where
  posx : ℚ
  posy : ℚ
  brightness : ℚ
deriving DecidableEq

/-- Loop body of `Galaxy::accumulate_particles` (main.cpp:232-240): floor the
projected position, bounds-check, and add the particle's brightness into the
intensity grid. -/
def accStep (width height : ℕ) (g : Intensity) (p : ScreenParticle) : Intensity :=
  let px := cppTrunc p.posx
  let py := cppTrunc p.posy
  if 0 ≤ px ∧ px < (width : ℤ) ∧ 0 ≤ py ∧ py < (height : ℤ) then
    addCellQ g py.toNat px.toNat p.brightness
  else g

/-- `Galaxy::accumulate_particles` (main.cpp:231-241). -/
def accumulate_particles (width height : ℕ) (ps : List ScreenParticle) (g : Intensity) :
    Intensity :=
  ps.foldl (accStep width height) g

/-! ## Core overlay and serialization (main.cpp:255-277) -/

/-- `Galaxy::render_core` (main.cpp:255-264): floor the center, and when
`cx > 0 && cx < width - 1 && cy >= 0 && cy < height`, write `'@'` at the
center cell, `'('` one column left, `')'` one column right; otherwise do
nothing. -/
def render_core (width height : ℕ) (center : ℚ × ℚ) (scr : Screen) : Screen :=
  let cx := cppTrunc center.1
  let cy := cppTrunc center.2
  if 0 < cx ∧ cx < (width : ℤ) - 1 ∧ 0 ≤ cy ∧ cy < (height : ℤ) then
    setCellC (setCellC (setCellC scr cy.toNat cx.toNat '@') cy.toNat (cx.toNat - 1) '(')
      cy.toNat (cx.toNat + 1) ')'
  else scr

/-- Row `y` of the screen as a string of `width` characters. -/
def rowString (scr : Screen) (width y : ℕ) : String :=
  String.mk ((List.range width).map (fun x => scr y x))

/-- The `for (line : screen) buffer << line << '\n'` loop of `Galaxy::output`
(main.cpp:270-272), over the first `m` rows. -/
def frameText (scr : Screen) (width : ℕ) : ℕ → String
  | 0 => ""
  | m + 1 => frameText scr width m ++ rowString scr width m ++ "\n"

/-- `Galaxy::output` (main.cpp:266-277) as the text it writes: each row
followed by a newline, then a blank line and the status line
`" Time: <seconds>s"` with the elapsed seconds cast to `int` (truncation
toward zero).  The cursor-home escape is terminal control, outside the
buffer. -/
def output (width height : ℕ) (scr : Screen) (real_elapsed : ℚ) : String :=
  frameText scr width height ++ "\n Time: " ++ toString (cppTrunc real_elapsed) ++ "s"

/-- `Galaxy::render` (main.cpp:152-162) as the frame text it produces, with
`center_ = {w / 2.0, h / 2.0}` and the stars/particles given by their
pipeline views: star pass, particle accumulation, intensity-to-glyph pass,
core overlay, serialization. -/
def render (width height : ℕ) (stars : List ScreenStar) (particles : List ScreenParticle)
    (real_elapsed : ℚ) : String :=
  let center : ℚ × ℚ := ((width : ℚ) / 2, (height : ℚ) / 2)
  let screen1 := render_stars width height stars blankScreen
  let intensity1 := accumulate_particles width height particles zeroIntensity
  let screen2 := apply_intensity width height screen1 intensity1
  let screen3 := render_core width height center screen2
  output width height screen3 real_elapsed

/-! ## Claims about Vec2 and Particle projection -/

/-- C6: Vec2 normalization is total: a zero-length vector normalizes to the
zero vector with no division performed, and the division branch is reached
only when the length is strictly positive. -/
theorem C6_normalized_total :
    (∀ v : Vec2, v.length = 0 → v.normalized = Vec2.mk 0 0) ∧
    (∀ v : Vec2, ¬ 0 < v.length → v.normalized = Vec2.mk 0 0) := by
  constructor
  · intro v hv
    simp [Vec2.normalized, hv]
  · intro v hv
    simp [Vec2.normalized, hv]

/-- Witness for C6 at the zero vector. -/
theorem C6_normalized_total_witness :
    (Vec2.mk 0 0).length = 0 ∧ (Vec2.mk 0 0).normalized = Vec2.mk 0 0 := by
  have hzero : (Vec2.mk 0 0).length = 0 := by
    simp [Vec2.length]
  exact ⟨hzero, C6_normalized_total.1 (Vec2.mk 0 0) hzero⟩

/-- C7: `get_position` returns
`center + (radius * cos(angle) * aspect, radius * sin(angle))`; with
`angle = 0` this is `center + (radius * aspect, 0)` and with `angle = π/2` it
is `center + (0, radius)`. -/
theorem C7_get_position :
    (∀ (p : Particle) (center : Vec2) (aspect : ℝ),
      p.get_position center aspect =
        Vec2.add center
          (Vec2.mk (p.radius * Real.cos p.angle * aspect) (p.radius * Real.sin p.angle))) ∧
    (∀ (r av b : ℝ) (center : Vec2) (aspect : ℝ),
      (Particle.mk 0 r av b).get_position center aspect =
        Vec2.add center (Vec2.mk (r * aspect) 0)) ∧
    (∀ (r av b : ℝ) (center : Vec2) (aspect : ℝ),
      (Particle.mk (Real.pi / 2) r av b).get_position center aspect =
        Vec2.add center (Vec2.mk 0 r)) := by
  refine ⟨fun p center aspect => ?_, fun r av b center aspect => ?_,
    fun r av b center aspect => ?_⟩
  · simp [Particle.get_position, Vec2.add]
  · simp [Particle.get_position, Vec2.add]
  · simp [Particle.get_position, Vec2.add, Real.cos_pi_div_two, Real.sin_pi_div_two]

/-! ## Claim C3: angle/phase wrapping -/

/-- `Particle::update` leaves `angular_velocity` unchanged. -/
theorem Particle.update_angular_velocity (p : Particle) (dt : ℝ) :
    (p.update dt).angular_velocity = p.angular_velocity := rfl

/-- Iterating `Particle::update` leaves `angular_velocity` unchanged. -/
theorem Particle.iterate_angular_velocity (p : Particle) (dt : ℝ) (n : ℕ) :
    ((fun q => Particle.update q dt)^[n] p).angular_velocity = p.angular_velocity := by
  induction n with
  | zero => rfl
  | succ m ih => rw [Function.iterate_succ_apply', Particle.update_angular_velocity, ih]

/-- One `Particle::update` keeps the angle in `[0, TWO_PI]` whenever the
unwrapped result lies in `[-TWO_PI, 2 * TWO_PI]`: one subtraction fixes an
overshoot of up to a full turn, and the `angle < 0` branch adds back the one
turn a negative result needs. -/
theorem particleUpdate_angle_mem (q : Particle) (dt : ℝ)
    (ha0 : -(TWO_PI : ℝ) ≤ q.angle + q.angular_velocity * dt)
    (ha1 : q.angle + q.angular_velocity * dt ≤ 2 * (TWO_PI : ℝ)) :
    0 ≤ (q.update dt).angle ∧ (q.update dt).angle ≤ (TWO_PI : ℝ) := by
  simp only [Particle.update]
  split_ifs <;> constructor <;> linarith

/-- `Star::update` leaves `speed` unchanged. -/
theorem TwinklingStar.update_speed (s : TwinklingStar) (dt : ℝ) :
    (s.update dt).speed = s.speed := rfl

/-- Iterating `Star::update` leaves `speed` unchanged. -/
theorem TwinklingStar.iterate_speed (s : TwinklingStar) (dt : ℝ) (n : ℕ) :
    ((fun r => TwinklingStar.update r dt)^[n] s).speed = s.speed := by
  induction n with
  | zero => rfl
  | succ m ih => rw [Function.iterate_succ_apply', TwinklingStar.update_speed, ih]

/-- One `Star::update` keeps the phase in `[0, TWO_PI]` whenever the
unwrapped result lies in `[0, 2 * TWO_PI]`. -/
theorem starUpdate_phase_mem (s : TwinklingStar) (dt : ℝ)
    (ha0 : 0 ≤ s.phase + s.speed * dt)
    (ha1 : s.phase + s.speed * dt ≤ 2 * (TWO_PI : ℝ)) :
    0 ≤ (s.update dt).phase ∧ (s.update dt).phase ≤ (TWO_PI : ℝ) := by
  simp only [TwinklingStar.update]
  split_ifs <;> constructor <;> linarith

/-- C3, corrected: the wrap test is the strict `> TWO_PI`, so an update that
lands exactly on `TWO_PI` is left there; the interval the code maintains is
the closed `[0, TWO_PI]`, not `[0, TWO_PI)`.  Any number `n ≥ 1` of updates
keeps the particle angle in `[0, TWO_PI]` provided the starting angle is at
least `-TWO_PI` (so the initial layout's negative angle draws qualify and
re-enter through the `angle < 0` branch, which adds the one turn back), the
first unwrapped angle is at most `2 * TWO_PI`, and each step
`angular_velocity * dt` lies in `[0, TWO_PI]`; any number `n ≥ 1` of star
updates keeps the phase in `[0, TWO_PI]` from a nonnegative starting phase
under the same step bounds; and on nonnegative angles and steps the particle
wrap and the star wrap (which has no negative branch) produce the same
value. -/
theorem C3_wrap_amended :
    (∀ (p : Particle) (dt : ℝ) (n : ℕ), 1 ≤ n →
      -(TWO_PI : ℝ) ≤ p.angle →
      p.angle + p.angular_velocity * dt ≤ 2 * (TWO_PI : ℝ) →
      0 ≤ p.angular_velocity * dt →
      p.angular_velocity * dt ≤ (TWO_PI : ℝ) →
      0 ≤ ((fun q => Particle.update q dt)^[n] p).angle ∧
        ((fun q => Particle.update q dt)^[n] p).angle ≤ (TWO_PI : ℝ)) ∧
    (∀ (s : TwinklingStar) (dt : ℝ) (n : ℕ), 1 ≤ n →
      0 ≤ s.phase →
      s.phase + s.speed * dt ≤ 2 * (TWO_PI : ℝ) →
      0 ≤ s.speed * dt →
      s.speed * dt ≤ (TWO_PI : ℝ) →
      0 ≤ ((fun r => TwinklingStar.update r dt)^[n] s).phase ∧
        ((fun r => TwinklingStar.update r dt)^[n] s).phase ≤ (TWO_PI : ℝ)) ∧
    (∀ (p : Particle) (s : TwinklingStar) (dt : ℝ),
      p.angle = s.phase → p.angular_velocity * dt = s.speed * dt →
      0 ≤ p.angle → 0 ≤ p.angular_velocity * dt →
      (p.update dt).angle = (s.update dt).phase) := by
  have hπ : (0:ℝ) ≤ (TWO_PI : ℝ) := by norm_num [TWO_PI, cppPI]
  refine ⟨?_, ?_, ?_⟩
  · intro p dt n hn h0 h4 hs0 hs1
    induction n with
    | zero => omega
    | succ m ih =>
      rcases Nat.eq_zero_or_pos m with hm | hm
      · subst hm
        rw [Function.iterate_one]
        exact particleUpdate_angle_mem p dt (by linarith) h4
      · have hq := ih hm
        rw [Function.iterate_succ_apply']
        have hav := Particle.iterate_angular_velocity p dt m
        apply particleUpdate_angle_mem
        · rw [hav]; linarith [hq.1]
        · rw [hav]; linarith [hq.2]
  · intro s dt n hn h0 h4 hs0 hs1
    induction n with
    | zero => omega
    | succ m ih =>
      rcases Nat.eq_zero_or_pos m with hm | hm
      · subst hm
        rw [Function.iterate_one]
        exact starUpdate_phase_mem s dt (by linarith) h4
      · have hq := ih hm
        rw [Function.iterate_succ_apply']
        have hsp := TwinklingStar.iterate_speed s dt m
        apply starUpdate_phase_mem
        · rw [hsp]; linarith [hq.1]
        · rw [hsp]; linarith [hq.2]
  · intro p s dt hangle hstep h0 hs0
    simp only [Particle.update, TwinklingStar.update, hangle, hstep]
    split_ifs <;> linarith

/-- Witness for C3: a particle starting at the admissible negative angle
`-1/10` (whose first update takes the `angle < 0` branch) and a star
iterated three times. -/
theorem C3_wrap_amended_witness :
    ((1:ℕ) ≤ 1 ∧ -(TWO_PI : ℝ) ≤ -(1/10 : ℝ) ∧
      -(1/10 : ℝ) + (1/10 : ℝ) * (1/10 : ℝ) ≤ 2 * (TWO_PI : ℝ) ∧
      (0:ℝ) ≤ (1/10 : ℝ) * (1/10 : ℝ) ∧ (1/10 : ℝ) * (1/10 : ℝ) ≤ (TWO_PI : ℝ)) ∧
    (0 ≤ ((fun q => Particle.update q (1/10))^[1]
        (Particle.mk (-(1/10)) 2 (1/10) 1)).angle ∧
      ((fun q => Particle.update q (1/10))^[1]
        (Particle.mk (-(1/10)) 2 (1/10) 1)).angle ≤ (TWO_PI : ℝ)) ∧
    ((1:ℕ) ≤ 3 ∧ (0:ℝ) ≤ 1 ∧ (1:ℝ) + (1/2 : ℝ) * (1/10 : ℝ) ≤ 2 * (TWO_PI : ℝ) ∧
      (0:ℝ) ≤ (1/2 : ℝ) * (1/10 : ℝ) ∧ (1/2 : ℝ) * (1/10 : ℝ) ≤ (TWO_PI : ℝ)) ∧
    (0 ≤ ((fun r => TwinklingStar.update r (1/10))^[3]
        (TwinklingStar.mk (Vec2.mk 0 0) 1 (1/2) 1)).phase ∧
      ((fun r => TwinklingStar.update r (1/10))^[3]
        (TwinklingStar.mk (Vec2.mk 0 0) 1 (1/2) 1)).phase ≤ (TWO_PI : ℝ)) := by
  have hp : (1:ℕ) ≤ 1 ∧ -(TWO_PI : ℝ) ≤ -(1/10 : ℝ) ∧
      -(1/10 : ℝ) + (1/10 : ℝ) * (1/10 : ℝ) ≤ 2 * (TWO_PI : ℝ) ∧
      (0:ℝ) ≤ (1/10 : ℝ) * (1/10 : ℝ) ∧ (1/10 : ℝ) * (1/10 : ℝ) ≤ (TWO_PI : ℝ) := by
    refine ⟨le_refl 1, ?_, ?_, by norm_num, ?_⟩ <;> norm_num [TWO_PI, cppPI]
  have hs : (1:ℕ) ≤ 3 ∧ (0:ℝ) ≤ 1 ∧
      (1:ℝ) + (1/2 : ℝ) * (1/10 : ℝ) ≤ 2 * (TWO_PI : ℝ) ∧
      (0:ℝ) ≤ (1/2 : ℝ) * (1/10 : ℝ) ∧ (1/2 : ℝ) * (1/10 : ℝ) ≤ (TWO_PI : ℝ) := by
    refine ⟨by norm_num, by norm_num, ?_, by norm_num, ?_⟩ <;> norm_num [TWO_PI, cppPI]
  refine ⟨hp, ?_, hs, ?_⟩
  · exact C3_wrap_amended.1 (Particle.mk (-(1/10)) 2 (1/10) 1) (1/10) 1 hp.1 hp.2.1
      hp.2.2.1 hp.2.2.2.1 hp.2.2.2.2
  · exact C3_wrap_amended.2.1 (TwinklingStar.mk (Vec2.mk 0 0) 1 (1/2) 1) (1/10) 3 hs.1
      hs.2.1 hs.2.2.1 hs.2.2.2.1 hs.2.2.2.2

/-- C3 counterexample: a particle whose angle is `TWO_PI - 1/100` (inside
`[0, TWO_PI)`) stepped by `angular_velocity * dt = 1/100` lands exactly on
`TWO_PI`; the strict `>` test does not wrap it, so the resulting angle is not
in `[0, TWO_PI)`. -/
theorem C3_wrap_counterexample :
    (Particle.update (Particle.mk ((TWO_PI : ℝ) - 1/100) 2 (1/10) 1) (1/10)).angle =
      (TWO_PI : ℝ) ∧
    ¬ (Particle.update (Particle.mk ((TWO_PI : ℝ) - 1/100) 2 (1/10) 1) (1/10)).angle <
      (TWO_PI : ℝ) := by
  have hres : (Particle.update (Particle.mk ((TWO_PI : ℝ) - 1/100) 2 (1/10) 1) (1/10)).angle =
      (TWO_PI : ℝ) := by
    simp only [Particle.update]
    have h1 : (TWO_PI : ℝ) - 1/100 + (1/10 : ℝ) * (1/10) = (TWO_PI : ℝ) := by ring
    rw [h1]
    have hpos : (0:ℝ) ≤ (TWO_PI : ℝ) := by norm_num [TWO_PI, cppPI]
    simp [lt_irrefl, not_lt.mpr hpos]
  exact ⟨hres, by rw [hres]; exact lt_irrefl _⟩

/-! ## Claim C4: initial particle invariants -/

/-- C4 counterexample: the last particle of spiral arm 1 (`arm = 1`,
`i = 149`, here with both random draws instantiated at `0`, which lie inside
their sampled ranges) has angle `PI + (149/150) * 2.5 * PI ≈ 3.48 * PI`,
which is not below `TWO_PI`: spiral-arm angles are not wrapped into
`[0, 2π)` at initialization. -/
theorem C4_init_counterexample :
    ¬ (spiralParticle 1 149 0 0).angle < (TWO_PI : ℝ) := by
  simp only [spiralParticle]
  push_cast
  norm_num [cppPI, TWO_PI]

/-- C4, corrected: every core-cluster particle satisfies `radius ≥ 0`,
`angle ∈ [0, 2π)` and `brightness ∈ [0, 1]` (indeed `brightness ∈ [0.8, 1]`),
and every spiral-arm particle satisfies `radius ≥ 0` and
`brightness ∈ [0, 1]`; but spiral-arm angles are written unwrapped, and the
last particle of arm 1 has angle above `TWO_PI` for every admissible
angle draw. -/
theorem C4_init_amended :
    (∀ (arm i : ℕ) (rv av : ℝ), arm < 2 → i < 150 →
      -1 ≤ rv → rv ≤ 1 → -(2/10) ≤ av → av ≤ 2/10 →
      0 ≤ (spiralParticle arm i rv av).radius ∧
        0 ≤ (spiralParticle arm i rv av).brightness ∧
        (spiralParticle arm i rv av).brightness ≤ 1) ∧
    (∀ (rv av : ℝ), -(2/10) ≤ av →
      (TWO_PI : ℝ) < (spiralParticle 1 149 rv av).angle) ∧
    (∀ (rd ad bd : ℝ), 1/2 ≤ rd → rd < 3 → 0 ≤ ad → ad < (TWO_PI : ℝ) →
      0 ≤ bd → bd < 2/10 →
      0 ≤ (coreParticle rd ad bd).radius ∧
        0 ≤ (coreParticle rd ad bd).angle ∧
        (coreParticle rd ad bd).angle < (TWO_PI : ℝ) ∧
        0 ≤ (coreParticle rd ad bd).brightness ∧
        (coreParticle rd ad bd).brightness ≤ 1) := by
  refine ⟨?_, ?_, ?_⟩
  · intro arm i rv av _ hi h1 h2 _ _
    have ht0 : (0:ℝ) ≤ (i : ℝ) / 150 := by positivity
    have ht1 : (i : ℝ) / 150 ≤ 149 / 150 := by
      have : (i : ℝ) ≤ 149 := by exact_mod_cast Nat.lt_succ_iff.mp hi
      linarith
    refine ⟨?_, ?_, ?_⟩
    · simp only [spiralParticle]
      have hmul : -(0.5 + (i : ℝ) / 150 * 1.5) ≤ rv * (0.5 + (i : ℝ) / 150 * 1.5) := by
        nlinarith
      nlinarith
    · simp only [spiralParticle]
      nlinarith
    · simp only [spiralParticle]
      nlinarith
  · intro rv av hav
    simp only [spiralParticle]
    push_cast
    norm_num [cppPI, TWO_PI]
    linarith
  · intro rd ad bd h1 h2 h3 h4 h5 h6
    simp only [coreParticle]
    refine ⟨by linarith, h3, h4, by linarith, by linarith⟩

/-- Witness for C4 at concrete draws inside the sampled ranges. -/
theorem C4_init_amended_witness :
    ((0:ℕ) < 2 ∧ (0:ℕ) < 150 ∧ (-1 : ℝ) ≤ 0 ∧ (0:ℝ) ≤ 1 ∧
      (-(2/10) : ℝ) ≤ 0 ∧ (0:ℝ) ≤ 2/10 ∧ (1/2 : ℝ) ≤ 1 ∧ (1:ℝ) < 3 ∧
      (0:ℝ) ≤ 0 ∧ (0:ℝ) < (TWO_PI : ℝ) ∧ (0:ℝ) < 2/10) ∧
    (0 ≤ (spiralParticle 0 0 0 0).radius ∧
      0 ≤ (spiralParticle 0 0 0 0).brightness ∧
      (spiralParticle 0 0 0 0).brightness ≤ 1) ∧
    (TWO_PI : ℝ) < (spiralParticle 1 149 0 0).angle ∧
    (0 ≤ (coreParticle 1 0 0).radius ∧
      0 ≤ (coreParticle 1 0 0).angle ∧
      (coreParticle 1 0 0).angle < (TWO_PI : ℝ) ∧
      0 ≤ (coreParticle 1 0 0).brightness ∧
      (coreParticle 1 0 0).brightness ≤ 1) := by
  have hπ : (0:ℝ) < (TWO_PI : ℝ) := by norm_num [TWO_PI, cppPI]
  refine ⟨⟨by norm_num, by norm_num, by norm_num, by norm_num, by norm_num,
    by norm_num, by norm_num, by norm_num, le_refl 0, hπ, by norm_num⟩, ?_, ?_, ?_⟩
  · exact C4_init_amended.1 0 0 0 0 (by norm_num) (by norm_num) (by norm_num)
      (by norm_num) (by norm_num) (by norm_num)
  · exact C4_init_amended.2.1 0 0 (by norm_num)
  · exact C4_init_amended.2.2 1 0 0 (by norm_num) (by norm_num) (le_refl 0) hπ
      (le_refl 0) (by norm_num)

/-! ## Claims C1, C9, C10: the intensity-to-glyph mapping -/

/-- `cppTrunc` agrees with the floor on nonnegative arguments. -/
theorem cppTrunc_nonneg (q : ℚ) (h : 0 ≤ q) : cppTrunc q = ⌊q⌋ := if_pos h

/-- Evaluation rule for `cppTrunc` at a nonnegative argument. -/
theorem cppTrunc_eq_of (q : ℚ) (n : ℤ) (hn : 0 ≤ n) (h0 : (n : ℚ) ≤ q)
    (h1 : q < (n : ℚ) + 1) : cppTrunc q = n := by
  have hq0 : (0:ℚ) ≤ q := le_trans (by exact_mod_cast hn) h0
  rw [cppTrunc_nonneg q hq0, Int.floor_eq_iff]
  exact ⟨h0, by exact_mod_cast h1⟩

/-- Evaluation rule for `glyphFor` when `i * 3` truncates to `n ∈ [0, 9]`. -/
theorem glyphFor_eq (i : ℚ) (n : ℤ) (hn : 0 ≤ n) (h0 : (n : ℚ) ≤ i * 3)
    (h1 : i * 3 < (n : ℚ) + 1) (hn9 : n ≤ 9) :
    glyphFor i = GRADIENT.toList.getD n.toNat ' ' := by
  unfold glyphFor rampIndex
  rw [cppTrunc_eq_of (i * 3) n hn h0 h1]
  have hlen : (GRADIENT.length : ℤ) - 1 = 9 := by decide
  unfold cppClamp
  rw [hlen]
  congr 1
  omega

/-- C1 counterexample: at accumulated intensity `0.6` (above the `0.1`
threshold) the code truncates `0.6 * 3 = 1.8` to index `1` and writes `'.'`,
while the claim's formula `clamp(round(1.8), 0, 9) = 2` names `':'`. -/
theorem C1_glyph_counterexample :
    (6/10 : ℚ) > 0.1 ∧
    apply_intensity 1 1 blankScreen (addCellQ zeroIntensity 0 0 (6/10)) 0 0 = '.' ∧
    GRADIENT.toList.getD
      (cppClamp (round ((6/10 : ℚ) * 3)) 0 ((GRADIENT.length : ℤ) - 1)).toNat ' ' = ':' ∧
    ('.' : Char) ≠ ':' := by
  have hg : addCellQ zeroIntensity 0 0 (6/10) 0 0 = 6/10 := by
    simp [addCellQ, zeroIntensity]
  refine ⟨by norm_num, ?_, ?_, by decide⟩
  · rw [apply_intensity_apply, hg,
      if_pos (⟨by norm_num, by norm_num, by norm_num⟩ :
        (0:ℕ) < 1 ∧ (0:ℕ) < 1 ∧ (6/10 : ℚ) > 0.1),
      glyphFor_eq (6/10) 1 (by norm_num) (by norm_num) (by norm_num) (by norm_num)]
    decide
  · have hr : round ((6/10 : ℚ) * 3) = 2 := by
      rw [round_eq, show ((6/10 : ℚ) * 3 + 1/2) = 23/10 by norm_num, Int.floor_eq_iff]
      norm_num
    rw [hr]
    decide

/-- C1, corrected: for every in-range cell with accumulated intensity above
`0.1`, the glyph written is `GRADIENT[rampIndex i]` where the ramp index is
`clamp(static_cast<int>(i * 3.0), 0, 9)` — truncation toward zero, not
rounding; the spec's single-particle example still holds, since a cell whose
sole contribution is brightness `1.0` gets index `3` and glyph `'-'`. -/
theorem C1_glyph_amended (width height : ℕ) (screen : Screen) (g : Intensity) (y x : ℕ)
    (hy : y < height) (hx : x < width) (hi : g y x > 0.1) :
    apply_intensity width height screen g y x =
      GRADIENT.toList.getD (rampIndex (g y x)).toNat ' ' ∧
    (g y x = 1 → apply_intensity width height screen g y x = '-') := by
  constructor
  · rw [apply_intensity_apply, if_pos ⟨hy, hx, hi⟩]
    rfl
  · intro h1
    rw [apply_intensity_apply, if_pos ⟨hy, hx, hi⟩, show glyphFor (g y x) = glyphFor 1 from by
      rw [h1],
      glyphFor_eq 1 3 (by norm_num) (by norm_num) (by norm_num) (by norm_num)]
    decide

/-- Witness for C1 on a 1×1 grid holding intensity `1`. -/
theorem C1_glyph_amended_witness :
    ((0:ℕ) < 1 ∧ addCellQ zeroIntensity 0 0 1 0 0 > 0.1) ∧
    (apply_intensity 1 1 blankScreen (addCellQ zeroIntensity 0 0 1) 0 0 =
        GRADIENT.toList.getD (rampIndex (addCellQ zeroIntensity 0 0 1 0 0)).toNat ' ' ∧
      (addCellQ zeroIntensity 0 0 1 0 0 = 1 →
        apply_intensity 1 1 blankScreen (addCellQ zeroIntensity 0 0 1) 0 0 = '-')) :=
  ⟨⟨by norm_num, by norm_num [addCellQ, zeroIntensity]⟩,
    C1_glyph_amended 1 1 blankScreen (addCellQ zeroIntensity 0 0 1) 0 0
      (by norm_num) (by norm_num) (by norm_num [addCellQ, zeroIntensity])⟩

/-- C9: above the `0.1` threshold the ramp index is monotone non-decreasing
in the accumulated intensity. -/
theorem C9_rampIndex_monotone (i1 i2 : ℚ) (h1 : 0.1 < i1) (h2 : 0.1 < i2)
    (h12 : i1 ≤ i2) : rampIndex i1 ≤ rampIndex i2 := by
  have hge1 : (0:ℚ) ≤ i1 * 3 := by nlinarith
  have hge2 : (0:ℚ) ≤ i2 * 3 := by nlinarith
  unfold rampIndex cppClamp
  rw [cppTrunc_nonneg _ hge1, cppTrunc_nonneg _ hge2]
  exact max_le_max (le_refl 0)
    (min_le_min (Int.floor_le_floor (by nlinarith)) (le_refl _))

/-- Witness for C9 at intensities `0.2 ≤ 1`. -/
theorem C9_rampIndex_monotone_witness :
    ((0.1 : ℚ) < 1/5 ∧ (0.1 : ℚ) < 1 ∧ (1/5 : ℚ) ≤ 1) ∧
    rampIndex (1/5) ≤ rampIndex 1 :=
  ⟨⟨by norm_num, by norm_num, by norm_num⟩,
    C9_rampIndex_monotone (1/5) 1 (by norm_num) (by norm_num) (by norm_num)⟩

/-- C10: an in-range cell with accumulated intensity in the band
`0.1 < i` and `i * 3 < 1` gets ramp index `0`, whose glyph is the space
character, so the cell ends up blank and whatever character (star glyph
included) was on the screen there before is overwritten by a space. -/
theorem C10_faint_band_blank (width height : ℕ) (screen : Screen) (g : Intensity)
    (y x : ℕ) (hy : y < height) (hx : x < width)
    (h1 : 0.1 < g y x) (h3 : g y x * 3 < 1) :
    rampIndex (g y x) = 0 ∧ apply_intensity width height screen g y x = ' ' := by
  have hidx : rampIndex (g y x) = 0 := by
    unfold rampIndex
    rw [cppTrunc_eq_of (g y x * 3) 0 (le_refl 0) (by push_cast; nlinarith)
      (by push_cast; linarith)]
    decide
  refine ⟨hidx, ?_⟩
  rw [apply_intensity_apply, if_pos ⟨hy, hx, h1⟩]
  unfold glyphFor
  rw [hidx]
  decide

/-- Witness for C10 on a 1×1 grid whose screen already holds the star glyph
`'*'` and whose intensity is `0.2`. -/
theorem C10_faint_band_blank_witness :
    ((0:ℕ) < 1 ∧ (0.1 : ℚ) < addCellQ zeroIntensity 0 0 (1/5) 0 0 ∧
      addCellQ zeroIntensity 0 0 (1/5) 0 0 * 3 < 1) ∧
    (rampIndex (addCellQ zeroIntensity 0 0 (1/5) 0 0) = 0 ∧
      apply_intensity 1 1 (setCellC blankScreen 0 0 '*')
        (addCellQ zeroIntensity 0 0 (1/5)) 0 0 = ' ') :=
  ⟨⟨by norm_num, by norm_num [addCellQ, zeroIntensity],
      by norm_num [addCellQ, zeroIntensity]⟩,
    C10_faint_band_blank 1 1 (setCellC blankScreen 0 0 '*')
      (addCellQ zeroIntensity 0 0 (1/5)) 0 0 (by norm_num) (by norm_num)
      (by norm_num [addCellQ, zeroIntensity]) (by norm_num [addCellQ, zeroIntensity])⟩

/-! ## Claim C2: the core overlay -/

/-- C2 counterexample: on a 2×1 grid the floored center is column
`cx = trunc(2 / 2.0) = 1`; the guard `cx < width - 1` fails, so `render_core`
draws nothing at all — the center cell stays blank, although the claim says
`'@'` is drawn there unconditionally. -/
theorem C2_core_counterexample :
    render_core 2 1 ((2:ℚ)/2, (1:ℚ)/2) blankScreen 0 1 = ' ' ∧ (' ' : Char) ≠ '@' := by
  have hcx : cppTrunc (((2:ℚ)/2, (1:ℚ)/2).1) = 1 :=
    cppTrunc_eq_of _ 1 (by norm_num) (by norm_num) (by norm_num)
  constructor
  · simp only [render_core]
    rw [if_neg]
    · rfl
    · rintro ⟨-, h2, -, -⟩
      rw [hcx] at h2
      omega
  · decide

/-- C2, corrected: the three core glyphs are drawn all together, only when
the joint guard `0 < cx ∧ cx < width - 1 ∧ 0 ≤ cy ∧ cy < height` holds for
the floored center `(cx, cy)`; in that case the three cells end up exactly
`'('`, `'@'`, `')'` regardless of what the earlier passes wrote there, and
otherwise the screen is returned completely unchanged (no `'@'` either). -/
theorem C2_core_amended (width height : ℕ) (center : ℚ × ℚ) (scr : Screen) :
    (0 < cppTrunc center.1 ∧ cppTrunc center.1 < (width : ℤ) - 1 ∧
        0 ≤ cppTrunc center.2 ∧ cppTrunc center.2 < (height : ℤ) →
      render_core width height center scr (cppTrunc center.2).toNat
          ((cppTrunc center.1).toNat - 1) = '(' ∧
        render_core width height center scr (cppTrunc center.2).toNat
          (cppTrunc center.1).toNat = '@' ∧
        render_core width height center scr (cppTrunc center.2).toNat
          ((cppTrunc center.1).toNat + 1) = ')') ∧
    (¬ (0 < cppTrunc center.1 ∧ cppTrunc center.1 < (width : ℤ) - 1 ∧
        0 ≤ cppTrunc center.2 ∧ cppTrunc center.2 < (height : ℤ)) →
      render_core width height center scr = scr) := by
  constructor
  · intro h
    have hcx1 : 1 ≤ (cppTrunc center.1).toNat := by omega
    have hne_a : (cppTrunc center.1).toNat - 1 ≠ (cppTrunc center.1).toNat + 1 := by omega
    have hne_b : (cppTrunc center.1).toNat ≠ (cppTrunc center.1).toNat + 1 := by omega
    have hne_c : (cppTrunc center.1).toNat ≠ (cppTrunc center.1).toNat - 1 := by omega
    have hne_d : (cppTrunc center.1).toNat + 1 ≠ (cppTrunc center.1).toNat - 1 := by omega
    simp only [render_core, if_pos h]
    refine ⟨?_, ?_, ?_⟩ <;> simp [setCellC, hne_a, hne_b, hne_c, hne_d]
  · intro h
    simp only [render_core, if_neg h]

/-- Witness for C2 on a 10×6 grid whose center cells were already written by
an earlier pass. -/
theorem C2_core_amended_witness :
    (0 < cppTrunc (((5:ℚ), (3:ℚ)).1) ∧ cppTrunc (((5:ℚ), (3:ℚ)).1) < (10:ℤ) - 1 ∧
      0 ≤ cppTrunc (((5:ℚ), (3:ℚ)).2) ∧ cppTrunc (((5:ℚ), (3:ℚ)).2) < (6:ℤ)) ∧
    (render_core 10 6 (5, 3) (setCellC blankScreen 3 5 '%') 3 4 = '(' ∧
      render_core 10 6 (5, 3) (setCellC blankScreen 3 5 '%') 3 5 = '@' ∧
      render_core 10 6 (5, 3) (setCellC blankScreen 3 5 '%') 3 6 = ')') := by
  have hcx : cppTrunc (((5:ℚ), (3:ℚ)).1) = 5 :=
    cppTrunc_eq_of _ 5 (by norm_num) (by norm_num) (by norm_num)
  have hcy : cppTrunc (((5:ℚ), (3:ℚ)).2) = 3 :=
    cppTrunc_eq_of _ 3 (by norm_num) (by norm_num) (by norm_num)
  have hpre : 0 < cppTrunc (((5:ℚ), (3:ℚ)).1) ∧
      cppTrunc (((5:ℚ), (3:ℚ)).1) < (10:ℤ) - 1 ∧
      0 ≤ cppTrunc (((5:ℚ), (3:ℚ)).2) ∧ cppTrunc (((5:ℚ), (3:ℚ)).2) < (6:ℤ) := by
    rw [hcx, hcy]
    refine ⟨by norm_num, by norm_num, by norm_num, by norm_num⟩
  have h := (C2_core_amended 10 6 (5, 3) (setCellC blankScreen 3 5 '%')).1 hpre
  rw [hcx, hcy] at h
  exact ⟨hpre, h⟩

/-! ## Claim C8: particle accumulation is order-independent -/

/-- Two grid additions commute, whatever their target cells. -/
theorem addCellQ_comm (g : Intensity) (y1 x1 y2 x2 : ℕ) (b1 b2 : ℚ) :
    addCellQ (addCellQ g y1 x1 b1) y2 x2 b2 =
      addCellQ (addCellQ g y2 x2 b2) y1 x1 b1 := by
  funext y x
  simp only [addCellQ]
  split_ifs <;> ring

/-- Two accumulation steps commute. -/
theorem accStep_comm (w h : ℕ) (g : Intensity) (p q : ScreenParticle) :
    accStep w h (accStep w h g p) q = accStep w h (accStep w h g q) p := by
  simp only [accStep]
  split_ifs <;> first | rfl | rw [addCellQ_comm]

/-- Accumulation over a list is invariant under permutation of the list. -/
theorem accumulate_perm (w h : ℕ) {l1 l2 : List ScreenParticle} (hp : l1.Perm l2) :
    ∀ g : Intensity, accumulate_particles w h l1 g = accumulate_particles w h l2 g := by
  induction hp with
  | nil => intro g; rfl
  | cons a hp ih =>
    intro g
    simp only [accumulate_particles, List.foldl_cons]
    exact ih _
  | swap a b l =>
    intro g
    simp only [accumulate_particles, List.foldl_cons]
    rw [accStep_comm]
  | trans h1 h2 ih1 ih2 =>
    intro g
    rw [ih1 g, ih2 g]

/-- C8: the particle accumulation pass is order-independent — permuting the
particle list leaves every cell of the accumulated intensity grid
unchanged. -/
theorem C8_accumulate_perm_invariant (width height : ℕ) (l1 l2 : List ScreenParticle)
    (g : Intensity) (hp : l1.Perm l2) (y x : ℕ) :
    accumulate_particles width height l1 g y x =
      accumulate_particles width height l2 g y x := by
  rw [accumulate_perm width height hp g]

/-- Witness for C8 on two particles swapped. -/
theorem C8_accumulate_perm_invariant_witness :
    ([(⟨0, 0, 1/2⟩ : ScreenParticle), ⟨1, 0, 1/4⟩].Perm
      [(⟨1, 0, 1/4⟩ : ScreenParticle), ⟨0, 0, 1/2⟩]) ∧
    accumulate_particles 2 1 [⟨0, 0, 1/2⟩, ⟨1, 0, 1/4⟩] zeroIntensity 0 0 =
      accumulate_particles 2 1 [⟨1, 0, 1/4⟩, ⟨0, 0, 1/2⟩] zeroIntensity 0 0 :=
  ⟨List.Perm.swap (⟨1, 0, 1/4⟩ : ScreenParticle) ⟨0, 0, 1/2⟩ [],
    C8_accumulate_perm_invariant 2 1 _ _ zeroIntensity
      (List.Perm.swap (⟨1, 0, 1/4⟩ : ScreenParticle) ⟨0, 0, 1/2⟩ []) 0 0⟩

/-! ## Claim C5: serialized frame format -/

/-- Each serialized row has exactly `width` characters. -/
theorem rowString_length (scr : Screen) (width y : ℕ) :
    (rowString scr width y).length = width := by
  simp [rowString, String.length]

/-- The row loop of `output` is the fold of the row strings. -/
theorem frameText_foldl (scr : Screen) (w : ℕ) (h : ℕ) :
    frameText scr w h =
      ((List.range h).map (rowString scr w)).foldl (fun b r => b ++ r ++ "\n") "" := by
  induction h with
  | zero => rfl
  | succ m ih =>
    rw [show frameText scr w (m + 1) = frameText scr w m ++ rowString scr w m ++ "\n" from
      rfl, List.range_succ, List.map_append, List.foldl_append, ih]
    rfl

/-- On an all-zero intensity grid the glyph pass changes nothing. -/
theorem apply_intensity_zero (w h : ℕ) :
    apply_intensity w h blankScreen zeroIntensity = blankScreen := by
  funext y x
  have hq : ¬ (y < h ∧ x < w ∧ zeroIntensity y x > 0.1) := by
    rintro ⟨-, -, hq⟩
    norm_num [zeroIntensity] at hq
  rw [apply_intensity_apply, if_neg hq]

/-- The core overlay on the empty 10×6 frame: center column 5, row 3. -/
theorem render_core_10_6 :
    render_core 10 6 ((((10:ℕ)):ℚ)/2, (((6:ℕ)):ℚ)/2) blankScreen =
      setCellC (setCellC (setCellC blankScreen 3 5 '@') 3 4 '(') 3 6 ')' := by
  have hcx : cppTrunc (((((10:ℕ)):ℚ)/2, (((6:ℕ)):ℚ)/2).1) = 5 :=
    cppTrunc_eq_of _ 5 (by norm_num) (by norm_num) (by norm_num)
  have hcy : cppTrunc (((((10:ℕ)):ℚ)/2, (((6:ℕ)):ℚ)/2).2) = 3 :=
    cppTrunc_eq_of _ 3 (by norm_num) (by norm_num) (by norm_num)
  simp only [render_core, hcx, hcy]
  have hcond : (0:ℤ) < 5 ∧ (5:ℤ) < ((10:ℕ):ℤ) - 1 ∧ (0:ℤ) ≤ 3 ∧ (3:ℤ) < ((6:ℕ):ℤ) := by
    norm_num
  rw [if_pos hcond]
  rfl

/-- The full frame for a 10×6 grid with no particles and no stars at elapsed
time 7.9 s: blank except the core overlay `(@)` at the center of row 3, and
the footer truncates `7.9` to `7`. -/
theorem render_10_6_empty :
    render 10 6 [] [] (79/10) =
      "          \n          \n          \n    (@)   \n          \n          \n\n Time: 7s" := by
  have htime : cppTrunc (79/10 : ℚ) = 7 :=
    cppTrunc_eq_of _ 7 (by norm_num) (by norm_num) (by norm_num)
  simp only [render, render_stars, accumulate_particles, List.foldl_nil,
    apply_intensity_zero, render_core_10_6, output, htime]
  decide

/-- C5 counterexample: the 10×6 frame with zero particles and zero stars is
not six blank lines plus the footer — the core overlay is drawn
unconditionally by `render`, so row 3 contains `(@)`. -/
theorem C5_output_counterexample :
    render 10 6 [] [] (79/10) ≠
      "          \n          \n          \n          \n          \n          \n\n Time: 7s" := by
  rw [render_10_6_empty]
  decide

/-- C5, corrected: the serialized frame is `height` rows of exactly `width`
characters, each followed by a newline, then a blank line and the footer
`" Time: <seconds>s"` with the elapsed seconds truncated toward zero; but a
10×6 grid with zero particles and zero stars is blank only outside the core
overlay — row 3 carries `(@)` at its center — and elapsed `7.9` prints as
`Time: 7s`. -/
theorem C5_output_amended :
    (∀ (w h : ℕ) (st : List ScreenStar) (ps : List ScreenParticle) (t : ℚ),
      ∃ rows : List String,
        rows.map String.length = List.replicate h w ∧
        render w h st ps t =
          rows.foldl (fun b r => b ++ r ++ "\n") "" ++ "\n Time: " ++
            toString (cppTrunc t) ++ "s") ∧
    render 10 6 [] [] (79/10) =
      "          \n          \n          \n    (@)   \n          \n          \n\n Time: 7s" := by
  constructor
  · intro w h st ps t
    refine ⟨(List.range h).map
      (rowString (render_core w h ((w:ℚ)/2, (h:ℚ)/2)
        (apply_intensity w h (render_stars w h st blankScreen)
          (accumulate_particles w h ps zeroIntensity))) w), ?_, ?_⟩
    · rw [List.map_map]
      have hconst : (String.length ∘ rowString (render_core w h ((w:ℚ)/2, (h:ℚ)/2)
          (apply_intensity w h (render_stars w h st blankScreen)
            (accumulate_particles w h ps zeroIntensity))) w) = fun _ => w :=
        funext fun y => rowString_length _ w y
      rw [hconst, List.map_const', List.length_range]
    · simp only [render, output, frameText_foldl]
  · exact render_10_6_empty
